import Mathlib

/-!
Shallow embedding of the solver DTO layer of cow-services:
the auction encoder (crates/driver/src/infra/solver/dto/auction.rs) and
the solution decoder (crates/driver/src/infra/solver/dto/solution.rs).
Machine integers (U256, usize, u64, i32, i128) are modelled as Nat or Int;
the 256-bit range enters explicitly where the source can overflow.
Rust BigDecimal values are modelled as an integer mantissa with a decimal
scale; f64 fee factors are modelled as rationals, following the spec.
-/

namespace CowServices

/-- A fixed-scale decimal number, mirroring bigdecimal::BigDecimal as the
source constructs it: BigDecimal::new(digits, scale) denotes
digits times ten to the minus scale. -/
structure BigDecimal where
  digits : Int
  scale : Nat
deriving DecidableEq, Repr

/-- The rational value denoted by a BigDecimal. -/
def BigDecimal.toRat (d : BigDecimal) : ℚ :=
  (d.digits : ℚ) / (10 : ℚ) ^ d.scale

/-! ## Domain model (crate::domain), as consumed by the DTO layer -/

/-- domain::competition::order::Side. -/
inductive Side where
  | sell
  | buy
deriving DecidableEq, Repr

/-- domain::competition::order::Kind (Market, Limit, Liquidity). -/
inductive OrderKind where
  | market
  | limit
  | liquidity
deriving DecidableEq, Repr

/-- domain::competition::order::FeePolicy. Only the volume variant is
consulted by the encoder; the other variants exist so that a non-volume
first policy is representable. Factors are f64 in the source, modelled
as rationals following the spec. -/
inductive FeePolicy where
  | volume (factor : ℚ)
  | surplus (factor : ℚ) (maxVolumeFactor : ℚ)
  | priceImprovement (factor : ℚ) (maxVolumeFactor : ℚ)
deriving DecidableEq, Repr

/-- eth::Asset: a token address paired with a U256 amount. -/
structure Asset where
  token : Nat
  amount : Nat
deriving DecidableEq, Repr

/-- The result of order.available(weth): the unfilled remainder of the
order. The method itself is outside the given sources, so the model
carries its result as data on the order. -/
structure Available where
  sell : Asset
  buy : Asset
  user_fee : Nat
deriving DecidableEq, Repr

/-- domain::competition::Order, restricted to the fields the encoder
reads: uid, side, kind, partial-fill flag, protocol fee policies and the
available (unfilled) amounts. -/
structure COrder where
  uid : Nat
  side : Side
  kind : OrderKind
  partiallyFillable : Bool
  protocol_fees : List FeePolicy
  available : Available
deriving DecidableEq, Repr

/-- domain token metadata as exposed by competition::Auction::tokens(). -/
structure CToken where
  address : Nat
  decimals : Option Nat
  symbol : Option String
  price : Option Nat
  available_balance : Nat
  trusted : Bool
deriving DecidableEq, Repr

/-- Auction deadline: the driver-facing and the solver-facing timestamps
are distinct values. Timestamps are modelled as integers. -/
structure Deadline where
  driver : Int
  solvers : Int
deriving DecidableEq, Repr

/-- domain::competition::Auction, restricted to what the DTO layer reads. -/
structure CAuction where
  id : Option Nat
  tokens : List CToken
  orders : List COrder
  effectiveGasPrice : Nat
  deadline : Deadline
deriving DecidableEq, Repr

/-! ## Domain liquidity (crate::domain::liquidity) -/

/-- liquidity::uniswap::v2 style constant-product pool. -/
structure UniswapV2Pool where
  address : Nat
  router : Nat
  reserves : List Asset
deriving DecidableEq, Repr

/-- liquidity::uniswap::v3 concentrated-liquidity pool. -/
structure UniswapV3Pool where
  address : Nat
  router : Nat
  tokens : Nat × Nat
  sqrtPrice : Nat
  liquidity : Nat
  tick : Int
  liquidityNet : List (Int × Int)
  fee : ℚ
deriving DecidableEq, Repr

/-- One reserve entry of a Balancer stable pool: an asset plus its raw
scaling factor (integer scaled by ten to the eighteen). -/
structure StableReserveIn where
  token : Nat
  amount : Nat
  scale : Nat
deriving DecidableEq, Repr

/-- liquidity::balancer::v2::stable pool. The pool id carries both the
pool address and the full balancer pool id. -/
structure BalancerStablePool where
  idAddress : Nat
  poolId : Nat
  reserves : List StableReserveIn
  amplificationFactor : Nat
  amplificationPrecision : Nat
  fee : Nat
deriving DecidableEq, Repr

/-- Version tag of a Balancer weighted pool. -/
inductive WeightedVersionIn where
  | v0
  | v3Plus
deriving DecidableEq, Repr

/-- One reserve entry of a Balancer weighted pool. -/
structure WeightedReserveIn where
  token : Nat
  amount : Nat
  scale : Nat
  weight : Nat
deriving DecidableEq, Repr

/-- liquidity::balancer::v2::weighted pool. -/
structure BalancerWeightedPool where
  idAddress : Nat
  poolId : Nat
  reserves : List WeightedReserveIn
  fee : Nat
  version : WeightedVersionIn
deriving DecidableEq, Repr

/-- liquidity::swapr pool: a constant-product base pool plus a
basis-point fee field. -/
structure SwaprPool where
  base : UniswapV2Pool
  feeBps : Nat
deriving DecidableEq, Repr

/-- liquidity::Kind, the closed set of pool variants. The ZeroEx payload
is never read by the encoder (both uses are todo! panics), so the variant
carries no data here. -/
inductive LKind where
  | uniswapV2 (pool : UniswapV2Pool)
  | uniswapV3 (pool : UniswapV3Pool)
  | balancerV2Stable (pool : BalancerStablePool)
  | balancerV2Weighted (pool : BalancerWeightedPool)
  | swapr (pool : SwaprPool)
  | zeroEx
deriving DecidableEq, Repr

/-- liquidity::Liquidity: round-assigned id, gas estimate, and the pool. -/
structure Liquidity where
  id : Nat
  gas : Nat
  kind : LKind
deriving DecidableEq, Repr

/-- Whether a liquidity entry is the unimplemented ZeroEx variant. -/
def LKind.isZeroEx : LKind → Bool
  | .zeroEx => true
  | _ => false

/-! ## Outbound DTO types (dto::auction) -/

/-- dto Token entry: all fields optional or defaulted. -/
structure DToken where
  decimals : Option Nat
  symbol : Option String
  reference_price : Option Nat
  available_balance : Nat
  trusted : Bool
deriving DecidableEq, Repr

/-- The Default::default() token entry: everything unset, zero, untrusted. -/
def DToken.defaultEntry : DToken :=
  { decimals := none, symbol := none, reference_price := none
    available_balance := 0, trusted := false }

/-- dto order kind discriminator. -/
inductive DKind where
  | sell
  | buy
deriving DecidableEq, Repr

/-- dto order class discriminator. -/
inductive DClass where
  | market
  | limit
  | liquidity
deriving DecidableEq, Repr

/-- dto Order as sent to solvers. -/
structure DOrder where
  uid : Nat
  sell_token : Nat
  buy_token : Nat
  sell_amount : Nat
  buy_amount : Nat
  fee_amount : Nat
  kind : DKind
  partially_fillable : Bool
  orderClass : DClass
deriving DecidableEq, Repr

/-- dto ConstantProductPool. The tokens field is a BTreeMap in the
source, modelled as an address-sorted association list. -/
structure ConstantProductPool where
  id : Nat
  address : Nat
  router : Nat
  gas_estimate : Nat
  tokens : List (Nat × Nat)
  fee : BigDecimal
deriving DecidableEq, Repr

/-- dto WeightedProductPool reserve entry. -/
structure WeightedProductReserve where
  balance : Nat
  scaling_factor : BigDecimal
  weight : BigDecimal
deriving DecidableEq, Repr

/-- dto weighted pool version tag. -/
inductive WeightedProductVersion where
  | v0
  | v3Plus
deriving DecidableEq, Repr

/-- dto WeightedProductPool. The tokens field is an IndexMap in the
source, modelled as an insertion-ordered association list. -/
structure WeightedProductPool where
  id : Nat
  address : Nat
  balancer_pool_id : Nat
  gas_estimate : Nat
  tokens : List (Nat × WeightedProductReserve)
  fee : BigDecimal
  version : WeightedProductVersion
deriving DecidableEq, Repr

/-- dto StablePool reserve entry. -/
structure StableReserve where
  balance : Nat
  scaling_factor : BigDecimal
deriving DecidableEq, Repr

/-- dto StablePool. -/
structure StablePool where
  id : Nat
  address : Nat
  balancer_pool_id : Nat
  gas_estimate : Nat
  tokens : List (Nat × StableReserve)
  amplification_parameter : BigDecimal
  fee : BigDecimal
deriving DecidableEq, Repr

/-- dto ConcentratedLiquidityPool. -/
structure ConcentratedLiquidityPool where
  id : Nat
  address : Nat
  router : Nat
  gas_estimate : Nat
  tokens : List Nat
  sqrt_price : Nat
  liquidity : Nat
  tick : Int
  liquidity_net : List (Int × Int)
  fee : BigDecimal
deriving DecidableEq, Repr

/-- dto Liquidity, the tagged union of outbound pool shapes. The
LimitOrder variant exists in the DTO but is never produced by the
encoder. -/
inductive DLiquidity where
  | constantProduct (pool : ConstantProductPool)
  | weightedProduct (pool : WeightedProductPool)
  | stable (pool : StablePool)
  | concentratedLiquidity (pool : ConcentratedLiquidityPool)
deriving DecidableEq, Repr

/-- dto Auction: the outbound snapshot. The tokens map is a HashMap in
the source, modelled as an association list queried by lookupToken. -/
structure DAuction where
  id : Option String
  tokens : List (Nat × DToken)
  orders : List DOrder
  liquidity : List DLiquidity
  effective_gas_price : Nat
  deadline : Int
deriving DecidableEq, Repr

/-! ## Helpers shared by the encoder -/

/-- Lookup in an association list, first binding wins. Models lookup in
the HashMap of token entries (whose iteration order is irrelevant here). -/
def lookupToken : List (Nat × DToken) → Nat → Option DToken
  | [], _ => none
  | (k, v) :: m, t => if t = k then some v else lookupToken m t

/-- HashMap insert: replace an existing binding for the key, else append.
Models collect::HashMap seeding, where a later duplicate key wins. -/
def hmInsert (m : List (Nat × DToken)) (k : Nat) (v : DToken) :
    List (Nat × DToken) :=
  if (lookupToken m k).isSome then
    m.map (fun p => if p.1 = k then (k, v) else p)
  else
    m ++ [(k, v)]

/-- HashMap entry(k).or_insert_with(Default::default): keep an existing
binding untouched, otherwise insert the default token entry. -/
def entryOrDefault (m : List (Nat × DToken)) (k : Nat) :
    List (Nat × DToken) :=
  if (lookupToken m k).isSome then m else m ++ [(k, DToken.defaultEntry)]

/-- Insert into an address-sorted association list, replacing an equal
key. Models BTreeMap insertion for the constant-product reserve map. -/
def btreeInsert (k : Nat) (v : Nat) : List (Nat × Nat) → List (Nat × Nat)
  | [] => [(k, v)]
  | (k', v') :: rest =>
    if k < k' then (k, v) :: (k', v') :: rest
    else if k = k' then (k, v) :: rest
    else (k', v') :: btreeInsert k v rest

/-- Collect a list of key-value pairs into a BTreeMap-ordered list. -/
def btreeOfList (l : List (Nat × Nat)) : List (Nat × Nat) :=
  l.foldl (fun m kv => btreeInsert kv.1 kv.2 m) []

/-- Map a fallible function over a list, failing if any element fails.
Models iterator map followed by collect into Option (used for the
encoder, where the failure is the todo! panic on ZeroEx liquidity). -/
def mapO (f : α → Option β) : List α → Option (List β)
  | [] => some []
  | a :: as =>
    match f a, mapO f as with
    | some b, some bs => some (b :: bs)
    | _, _ => none

/-! ## Numeric helpers of the encoder -/

/-- Modelled from the spec: U256::apply_factor with a multiplier of one
over the given divisor. The method body is outside the given sources;
per the spec the adjusted amount is the floor of the exact quotient, and
the operation fails (None) when the factor is invalid or the result does
not fit in 256 bits. -/
def applyFactorDiv (amount : Nat) (divisor : ℚ) : Option Nat :=
  if 0 < divisor then
    let q := (Int.floor ((amount : ℚ) / divisor)).toNat
    if q < 2 ^ 256 then some q else none
  else none

/-- fee_to_decimal: a raw Balancer fee scaled by ten to the eighteen,
re-expressed as a decimal with 18 fractional digits. -/
def fee_to_decimal (fee : Nat) : BigDecimal := ⟨(fee : Int), 18⟩

/-- weight_to_decimal: same 18-digit re-expression for pool weights. -/
def weight_to_decimal (weight : Nat) : BigDecimal := ⟨(weight : Int), 18⟩

/-- scaling_factor_to_decimal: same 18-digit re-expression for scaling
factors. -/
def scaling_factor_to_decimal (scale : Nat) : BigDecimal :=
  ⟨(scale : Int), 18⟩

/-- Modelled from the spec: util::conv::rational_to_big_decimal converts
an exact rational to a decimal by long division. The function body is
outside the given sources; the model truncates at 18 fractional digits,
which is exact for every value arising here. -/
def rational_to_big_decimal (q : ℚ) : BigDecimal :=
  ⟨Int.floor (q * (10 : ℚ) ^ 18), 18⟩

/-! ## The auction encoder (Auction::new) -/

/-- The fee-adjusted available amounts of an order, mirroring the
volume-fee branch of Auction::new: a Buy order divides its available
sell amount by one plus the factor, a Sell order divides its available
buy amount by one minus the factor, and a failed adjustment degrades the
amount to zero (unwrap_or_default). -/
def adjustAvailable (o : COrder) : Available :=
  match o.protocol_fees.head? with
  | some (FeePolicy.volume factor) =>
    match o.side with
    | Side.buy =>
      { o.available with
        sell := { o.available.sell with
                  amount := (applyFactorDiv o.available.sell.amount
                              (1 + factor)).getD 0 } }
    | Side.sell =>
      { o.available with
        buy := { o.available.buy with
                 amount := (applyFactorDiv o.available.buy.amount
                             (1 - factor)).getD 0 } }
  | _ => o.available

/-- The dto Order produced for one domain order. The weth parameter
feeds order.available in the source; availability is carried as data on
the order here, so it is unused beyond fixing the signature. -/
def encodeOrder (weth : Nat) (o : COrder) : DOrder :=
  let available := adjustAvailable o
  { uid := o.uid
    sell_token := available.sell.token
    buy_token := available.buy.token
    sell_amount := available.sell.amount
    buy_amount := available.buy.amount
    fee_amount := available.user_fee
    kind := match o.side with
            | Side.buy => DKind.buy
            | Side.sell => DKind.sell
    partially_fillable := o.partiallyFillable
    orderClass := match o.kind with
                  | OrderKind.market => DClass.market
                  | OrderKind.limit => DClass.limit
                  | OrderKind.liquidity => DClass.liquidity }

/-- The tokens referenced by one liquidity entry, as scanned by the
default-token loop of Auction::new. The ZeroEx arm is a todo! panic in
the source, modelled as None. -/
def liquidityTokens : LKind → Option (List Nat)
  | .uniswapV2 pool => some (pool.reserves.map (·.token))
  | .uniswapV3 pool => some [pool.tokens.1, pool.tokens.2]
  | .balancerV2Stable pool => some (pool.reserves.map (·.token))
  | .balancerV2Weighted pool => some (pool.reserves.map (·.token))
  | .swapr pool => some (pool.base.reserves.map (·.token))
  | .zeroEx => none

/-- The outbound shape of one liquidity entry, mirroring the liquidity
match of Auction::new. The ZeroEx arm is a todo! panic in the source,
modelled as None. -/
def encodeLiquidity (l : Liquidity) : Option DLiquidity :=
  match l.kind with
  | .uniswapV2 pool =>
    some (DLiquidity.constantProduct
      { id := l.id
        address := pool.address
        router := pool.router
        gas_estimate := l.gas
        tokens := btreeOfList (pool.reserves.map (fun a => (a.token, a.amount)))
        fee := ⟨3, 3⟩ })
  | .uniswapV3 pool =>
    some (DLiquidity.concentratedLiquidity
      { id := l.id
        address := pool.address
        router := pool.router
        gas_estimate := l.gas
        tokens := [pool.tokens.1, pool.tokens.2]
        sqrt_price := pool.sqrtPrice
        liquidity := pool.liquidity
        tick := pool.tick
        liquidity_net := pool.liquidityNet
        fee := rational_to_big_decimal pool.fee })
  | .balancerV2Stable pool =>
    some (DLiquidity.stable
      { id := l.id
        address := pool.idAddress
        balancer_pool_id := pool.poolId
        gas_estimate := l.gas
        tokens := pool.reserves.map (fun r =>
          (r.token, { balance := r.amount
                      scaling_factor := scaling_factor_to_decimal r.scale }))
        amplification_parameter := rational_to_big_decimal
          (mkRat (pool.amplificationFactor : Int) pool.amplificationPrecision)
        fee := fee_to_decimal pool.fee })
  | .balancerV2Weighted pool =>
    some (DLiquidity.weightedProduct
      { id := l.id
        address := pool.idAddress
        balancer_pool_id := pool.poolId
        gas_estimate := l.gas
        tokens := pool.reserves.map (fun r =>
          (r.token, { balance := r.amount
                      scaling_factor := scaling_factor_to_decimal r.scale
                      weight := weight_to_decimal r.weight }))
        fee := fee_to_decimal pool.fee
        version := match pool.version with
                   | WeightedVersionIn.v0 => WeightedProductVersion.v0
                   | WeightedVersionIn.v3Plus => WeightedProductVersion.v3Plus })
  | .swapr pool =>
    some (DLiquidity.constantProduct
      { id := l.id
        address := pool.base.address
        router := pool.base.router
        gas_estimate := l.gas
        tokens := btreeOfList
          (pool.base.reserves.map (fun a => (a.token, a.amount)))
        fee := ⟨(pool.feeBps : Int), 4⟩ })
  | .zeroEx => none

/-- The token map seeded from the auction's token metadata, mirroring
the initial collect into a HashMap. -/
def seedTokens (auction : CAuction) : List (Nat × DToken) :=
  auction.tokens.foldl
    (fun m t =>
      hmInsert m t.address
        { decimals := t.decimals
          symbol := t.symbol
          reference_price := t.price
          available_balance := t.available_balance
          trusted := t.trusted })
    []

/-- Auction::new: the outbound auction snapshot. Returns None exactly
when the source panics, that is when the liquidity set contains a ZeroEx
entry (the todo! arms of the token scan and of the liquidity match). -/
def Auction.new (auction : CAuction) (liquidity : List Liquidity)
    (weth : Nat) : Option DAuction :=
  match mapO (fun l => liquidityTokens l.kind) liquidity,
        mapO encodeLiquidity liquidity with
  | some liqTokens, some encoded =>
    some
      { id := auction.id.map toString
        tokens := liqTokens.flatten.foldl entryOrDefault (seedTokens auction)
        orders := auction.orders.map (encodeOrder weth)
        liquidity := encoded
        effective_gas_price := auction.effectiveGasPrice
        deadline := auction.deadline.solvers }
  | _, _ => none

/-! ## Inbound DTO types (dto::solution) -/

/-- dto Fulfillment: references an auction order by uid, with an
executed amount and an optional dynamic fee. -/
structure SFulfillment where
  order : Nat
  executed_amount : Nat
  fee : Option Nat
deriving DecidableEq, Repr

/-- dto trade kind discriminator for JIT orders. -/
inductive SKind where
  | sell
  | buy
deriving DecidableEq, Repr

/-- dto sell-token balance source. -/
inductive SSellTokenBalance where
  | erc20
  | internal
  | external
deriving DecidableEq, Repr

/-- dto buy-token balance destination. -/
inductive SBuyTokenBalance where
  | erc20
  | internal
deriving DecidableEq, Repr

/-- dto signing scheme. -/
inductive SSigningScheme where
  | eip712
  | ethSign
  | preSign
  | eip1271
deriving DecidableEq, Repr

/-- dto JitOrder: the fully solver-specified ephemeral order. -/
structure SJitOrder where
  sell_token : Nat
  buy_token : Nat
  receiver : Nat
  sell_amount : Nat
  buy_amount : Nat
  valid_to : Nat
  app_data : Nat
  fee_amount : Nat
  kind : SKind
  partially_fillable : Bool
  sell_token_balance : SSellTokenBalance
  buy_token_balance : SBuyTokenBalance
  signing_scheme : SSigningScheme
  signature : List Nat
deriving DecidableEq, Repr

/-- dto JitTrade: a JIT order plus its executed amount. -/
structure SJitTrade where
  order : SJitOrder
  executed_amount : Nat
deriving DecidableEq, Repr

/-- dto Trade, tagged fulfillment or jit. -/
inductive STrade where
  | fulfillment (f : SFulfillment)
  | jit (t : SJitTrade)
deriving DecidableEq, Repr

/-- dto token allowance of a custom interaction. -/
structure SAllowance where
  token : Nat
  spender : Nat
  amount : Nat
deriving DecidableEq, Repr

/-- dto asset of a custom interaction. -/
structure SAsset where
  token : Nat
  amount : Nat
deriving DecidableEq, Repr

/-- dto CustomInteraction. -/
structure SCustomInteraction where
  internalize : Bool
  target : Nat
  value : Nat
  call_data : List Nat
  allowances : List SAllowance
  inputs : List SAsset
  outputs : List SAsset
deriving DecidableEq, Repr

/-- dto LiquidityInteraction: references a liquidity pool by id. -/
structure SLiquidityInteraction where
  internalize : Bool
  id : Nat
  input_token : Nat
  output_token : Nat
  input_amount : Nat
  output_amount : Nat
deriving DecidableEq, Repr

/-- dto Interaction, tagged liquidity or custom. -/
inductive SInteraction where
  | liquidity (i : SLiquidityInteraction)
  | custom (i : SCustomInteraction)
deriving DecidableEq, Repr

/-- dto Score: the solver-declared score, either a direct value or a
risk-adjusted success probability (an f64 in the source, modelled as a
rational and only ever passed through). -/
inductive SScore where
  | solver (score : Nat)
  | riskAdjusted (successProbability : ℚ)
deriving DecidableEq, Repr

/-- dto Solution: one candidate settlement proposed by a solver. -/
structure SSolution where
  id : Nat
  prices : List (Nat × Nat)
  trades : List STrade
  interactions : List SInteraction
  score : SScore
  gas : Option Nat
deriving DecidableEq, Repr

/-- dto Solutions: the whole response batch. -/
structure Solutions where
  solutions : List SSolution
deriving DecidableEq, Repr

/-! ## Domain solution types (crate::domain::competition::solution) -/

/-- The identity of the responding solver, restricted to its address. -/
structure Solver where
  address : Nat
deriving DecidableEq, Repr

/-- trade::Fee: the order's static fee applies, or a dynamic sell-amount
fee supplied with the trade. -/
inductive CFee where
  | staticFee
  | dynamic (amount : Nat)
deriving DecidableEq, Repr

/-- trade::Fulfillment: the located auction order, the executed amount
and the fee marker. -/
structure CFulfillment where
  order : COrder
  executed : Nat
  fee : CFee
deriving DecidableEq, Repr

/-- order::Signature of a JIT order: scheme, raw bytes, and the signer
address assigned by the decoder. -/
structure CSignature where
  scheme : SSigningScheme
  data : List Nat
  signer : Nat
deriving DecidableEq, Repr

/-- order::Jit: the synthetic order constructed from a JIT trade. -/
structure CJitOrder where
  sell : Asset
  buy : Asset
  fee : Nat
  receiver : Nat
  valid_to : Nat
  app_data : Nat
  side : Side
  partiallyFillable : Bool
  sell_token_balance : SSellTokenBalance
  buy_token_balance : SBuyTokenBalance
  signature : CSignature
deriving DecidableEq, Repr

/-- trade::Jit: the synthetic order plus its executed amount. -/
structure CJit where
  order : CJitOrder
  executed : Nat
deriving DecidableEq, Repr

/-- solution::Trade. -/
inductive CTrade where
  | fulfillment (f : CFulfillment)
  | jit (t : CJit)
deriving DecidableEq, Repr

/-- eth::Allowance as bound into a custom interaction. -/
structure CAllowance where
  token : Nat
  spender : Nat
  amount : Nat
deriving DecidableEq, Repr

/-- interaction::Custom: the verbatim pass-through of a custom
interaction. -/
structure CCustomInteraction where
  target : Nat
  value : Nat
  call_data : List Nat
  allowances : List CAllowance
  inputs : List Asset
  outputs : List Asset
  internalize : Bool
deriving DecidableEq, Repr

/-- interaction::Liquidity: the full pool snapshot bound by id, plus the
declared input and output assets and the internalize flag. -/
structure CLiquidityInteraction where
  liquidity : Liquidity
  input : Asset
  output : Asset
  internalize : Bool
deriving DecidableEq, Repr

/-- solution::Interaction. -/
inductive CInteraction where
  | custom (i : CCustomInteraction)
  | liquidity (i : CLiquidityInteraction)
deriving DecidableEq, Repr

/-- solution::SolverScore: the resolved score of a decoded solution. -/
inductive SolverScore where
  | surplus
  | solver (score : Nat)
  | riskAdjusted (successProbability : ℚ)
deriving DecidableEq, Repr

/-- competition::Solution as assembled by the decoder. -/
structure CSolution where
  id : Nat
  trades : List CTrade
  prices : List (Nat × Nat)
  interactions : List CInteraction
  solver : Solver
  score : SolverScore
  weth : Nat
  gas : Option Nat
deriving DecidableEq, Repr

/-! ## The solution decoder (Solutions::into_domain) -/

/-- Map a fallible function over a list, short-circuiting on the first
error. Models iterator map followed by try_collect into Result. -/
def mapE (f : α → Except String β) : List α → Except String (List β)
  | [] => .ok []
  | a :: as =>
    match f a with
    | .error e => .error e
    | .ok b =>
      match mapE f as with
      | .error e => .error e
      | .ok bs => .ok (b :: bs)

/-- error::Solution: the failure cases of competition::Solution::new as
matched by the decoder. -/
inductive SolutionError where
  | invalidClearingPrices
  | protocolFee (err : String)
deriving DecidableEq, Repr

/-- The unspecified validation inside trade::Fulfillment::new, as a
parameter: None accepts, Some gives the underlying error message. -/
def FulfillmentCheck : Type := COrder → Nat → CFee → Option String

/-- The unspecified validation inside trade::Jit::new, as a parameter. -/
def JitCheck : Type := CJitOrder → Nat → Option String

/-- The unspecified validation inside competition::Solution::new, as a
parameter over the assembled solution. -/
def SolutionCheck : Type := CSolution → Option SolutionError

/-- Modelled from the spec: the body of trade::Fulfillment::new is
outside the given sources. Per the spec it builds a fulfillment from
the located order, the executed amount and the fee marker, and can
itself fail (amount/order mismatch); the unspecified validation is
taken as a parameter. -/
def Fulfillment.new (check : FulfillmentCheck) (order : COrder)
    (executed : Nat) (fee : CFee) : Except String CFulfillment :=
  match check order executed fee with
  | some err => .error err
  | none => .ok { order := order, executed := executed, fee := fee }

/-- Modelled from the spec: the body of trade::Jit::new is outside the
given sources. Per the spec it binds the synthetic order and the
executed amount, and can itself fail; the unspecified validation is
taken as a parameter. -/
def Jit.new (check : JitCheck) (order : CJitOrder) (executed : Nat) :
    Except String CJit :=
  match check order executed with
  | some err => .error err
  | none => .ok { order := order, executed := executed }

/-- The fee marker of a fulfillment: a dynamic fee when supplied, else
the marker that the order's static fee applies. -/
def feeOfOpt : Option Nat → CFee
  | some fee => CFee.dynamic fee
  | none => CFee.staticFee

/-- The synthetic order constructed in the jit arm of the trade
decoder: all fields come from the solver-supplied payload except the
signer, which is fixed to the solver's own address. -/
def jitOrderOf (solver : Solver) (o : SJitOrder) : CJitOrder :=
  { sell := { amount := o.sell_amount, token := o.sell_token }
    buy := { amount := o.buy_amount, token := o.buy_token }
    fee := o.fee_amount
    receiver := o.receiver
    valid_to := o.valid_to
    app_data := o.app_data
    side := match o.kind with
            | SKind.sell => Side.sell
            | SKind.buy => Side.buy
    partiallyFillable := o.partially_fillable
    sell_token_balance := o.sell_token_balance
    buy_token_balance := o.buy_token_balance
    signature := { scheme := o.signing_scheme
                   data := o.signature
                   signer := solver.address } }

/-- Decode one trade: a fulfillment resolves its order uid against the
auction's order set (a hard failure when absent) and hands the located
order to Fulfillment::new, wrapping its error as an invalid-fulfillment
message; a JIT trade builds the synthetic order with the signer fixed
to the solver's own address and hands it to Jit::new, wrapping its
error as an invalid-JIT-trade message. -/
def decodeTrade (fulfillmentCk : FulfillmentCheck) (jitCk : JitCheck)
    (auction : CAuction) (solver : Solver) :
    STrade → Except String CTrade
  | .fulfillment f =>
    match auction.orders.find? (fun o => o.uid = f.order) with
    | none => .error "invalid order UID specified in fulfillment"
    | some o =>
      match Fulfillment.new fulfillmentCk o f.executed_amount
          (feeOfOpt f.fee) with
      | .ok fulfillment => .ok (CTrade.fulfillment fulfillment)
      | .error err => .error ("invalid fulfillment: " ++ err)
  | .jit jit =>
    match Jit.new jitCk (jitOrderOf solver jit.order)
        jit.executed_amount with
    | .ok t => .ok (CTrade.jit t)
    | .error err => .error ("invalid JIT trade: " ++ err)

/-- Decode one interaction: a custom interaction passes through
verbatim; a liquidity interaction resolves its pool id against the
round's liquidity set (a hard failure when absent, the full snapshot
bound when present). -/
def decodeInteraction (liquidity : List Liquidity) :
    SInteraction → Except String CInteraction
  | .custom i =>
    .ok (CInteraction.custom
      { target := i.target
        value := i.value
        call_data := i.call_data
        allowances := i.allowances.map (fun a =>
          { token := a.token, spender := a.spender, amount := a.amount })
        inputs := i.inputs.map (fun a =>
          { amount := a.amount, token := a.token })
        outputs := i.outputs.map (fun a =>
          { amount := a.amount, token := a.token })
        internalize := i.internalize })
  | .liquidity i =>
    match liquidity.find? (fun l => l.id = i.id) with
    | none => .error "invalid liquidity ID specified in interaction"
    | some l =>
      .ok (CInteraction.liquidity
        { liquidity := l
          input := { amount := i.input_amount, token := i.input_token }
          output := { amount := i.output_amount, token := i.output_token }
          internalize := i.internalize })

/-- The scoring policy applied by the decoder: when a surplus-ranking
cutoff is configured and the auction's driver-facing deadline is
strictly after it, the score is forced to surplus ranking; otherwise
the solver-declared score is kept unchanged. -/
def resolveScore (declared : SScore) (deadlineDriver : Int)
    (rankBySurplusDate : Option Int) : SolverScore :=
  match rankBySurplusDate with
  | some date =>
    if deadlineDriver > date then SolverScore.surplus
    else
      match declared with
      | SScore.solver score => SolverScore.solver score
      | SScore.riskAdjusted p => SolverScore.riskAdjusted p
  | none =>
    match declared with
    | SScore.solver score => SolverScore.solver score
    | SScore.riskAdjusted p => SolverScore.riskAdjusted p

/-- Modelled from the spec: the body of competition::Solution::new is
outside the given sources. Per the spec it assembles the domain
solution from exactly these fields and can itself fail with an
invalid-clearing-prices or protocol-fee error; the unspecified
validation is taken as a parameter over the assembled record. -/
def Solution.new (check : SolutionCheck) (id : Nat)
    (trades : List CTrade) (prices : List (Nat × Nat))
    (interactions : List CInteraction) (solver : Solver)
    (score : SolverScore) (weth : Nat) (gas : Option Nat) :
    Except SolutionError CSolution :=
  let sol : CSolution :=
    { id := id, trades := trades, prices := prices
      interactions := interactions, solver := solver, score := score
      weth := weth, gas := gas }
  match check sol with
  | some e => .error e
  | none => .ok sol

/-- Decode one candidate solution: trades, then prices, then
interactions, then the resolved score, handed to Solution::new whose
failures are mapped to their descriptive strings. -/
def decodeSolution (fulfillmentCk : FulfillmentCheck) (jitCk : JitCheck)
    (solutionCk : SolutionCheck) (auction : CAuction)
    (liquidity : List Liquidity) (weth : Nat) (solver : Solver)
    (rankBySurplusDate : Option Int) (s : SSolution) :
    Except String CSolution :=
  match mapE (decodeTrade fulfillmentCk jitCk auction solver) s.trades with
  | .error e => .error e
  | .ok trades =>
    match mapE (decodeInteraction liquidity) s.interactions with
    | .error e => .error e
    | .ok interactions =>
      match Solution.new solutionCk s.id trades s.prices interactions
          solver
          (resolveScore s.score auction.deadline.driver rankBySurplusDate)
          weth s.gas with
      | .ok sol => .ok sol
      | .error SolutionError.invalidClearingPrices =>
        .error "invalid clearing prices"
      | .error (SolutionError.protocolFee err) =>
        .error ("could not incorporate protocol fee: " ++ err)

/-- Solutions::into_domain: decode the whole batch, short-circuiting on
the first failing candidate (collect into Result). -/
def Solutions.into_domain (s : Solutions) (fulfillmentCk : FulfillmentCheck)
    (jitCk : JitCheck) (solutionCk : SolutionCheck) (auction : CAuction)
    (liquidity : List Liquidity) (weth : Nat) (solver : Solver)
    (rankBySurplusDate : Option Int) : Except String (List CSolution) :=
  mapE (decodeSolution fulfillmentCk jitCk solutionCk auction liquidity
    weth solver rankBySurplusDate) s.solutions

/-! ## Small accessors and concrete instances used by the theorems -/

/-- Whether an Except value is an error. -/
def isError : Except String α → Bool
  | .error _ => true
  | .ok _ => false

/-- The fee of an outbound liquidity entry when it is a constant-product
pool, and None otherwise. -/
def DLiquidity.constantProductFee : DLiquidity → Option BigDecimal
  | .constantProduct cp => some cp.fee
  | _ => none

/-- An auction with no tokens and no orders, used as a concrete input. -/
def emptyAuction : CAuction :=
  { id := none, tokens := [], orders := [], effectiveGasPrice := 0
    deadline := { driver := 0, solvers := 0 } }

/-- A concrete ZeroEx liquidity entry. -/
def zeroExLiquidity : Liquidity := { id := 0, gas := 0, kind := LKind.zeroEx }

/-- A concrete two-token constant-product pool. -/
def cpPool : UniswapV2Pool :=
  { address := 11, router := 12
    reserves := [{ token := 5, amount := 1000 }, { token := 7, amount := 2000 }] }

/-- A concrete constant-product liquidity entry. -/
def cpLiquidity : Liquidity := { id := 3, gas := 21, kind := LKind.uniswapV2 cpPool }

/-- A concrete Swapr pool with a 25 basis-point fee. -/
def swaprPool : SwaprPool := { base := cpPool, feeBps := 25 }

/-- A concrete Swapr liquidity entry. -/
def swaprLiquidity : Liquidity :=
  { id := 4, gas := 22, kind := LKind.swapr swaprPool }

/-- A placeholder outbound auction, used only as a getD default. -/
def dummyDAuction : DAuction :=
  { id := none, tokens := [], orders := [], liquidity := []
    effective_gas_price := 0, deadline := 0 }

/-- The encoded snapshot of the empty auction with the single
constant-product pool. -/
def cpEncodedAuction : DAuction :=
  (Auction.new emptyAuction [cpLiquidity] 0).getD dummyDAuction

/-- A sell order whose volume-fee adjustment overflows 256 bits: the
available buy amount is the largest U256 value and the factor is one
half, so the adjusted buy amount would be almost twice the U256 range. -/
def overflowOrder : COrder :=
  { uid := 0, side := Side.sell, kind := OrderKind.limit
    partiallyFillable := false
    protocol_fees := [FeePolicy.volume (1 / 2)]
    available :=
      { sell := { token := 1, amount := 10 }
        buy := { token := 2, amount := 2 ^ 256 - 1 }
        user_fee := 0 } }

/-- A sell order with a volume fee factor of one half and small amounts. -/
def sellFeeOrder : COrder :=
  { uid := 1, side := Side.sell, kind := OrderKind.limit
    partiallyFillable := false
    protocol_fees := [FeePolicy.volume (1 / 2)]
    available :=
      { sell := { token := 1, amount := 100 }
        buy := { token := 2, amount := 100 }
        user_fee := 0 } }

/-- A buy order with a volume fee factor of one half and small amounts. -/
def buyFeeOrder : COrder :=
  { uid := 2, side := Side.buy, kind := OrderKind.market
    partiallyFillable := true
    protocol_fees := [FeePolicy.volume (1 / 2)]
    available :=
      { sell := { token := 1, amount := 100 }
        buy := { token := 2, amount := 200 }
        user_fee := 0 } }

/-- A concrete fulfillment referencing an order uid that no auction
order carries. -/
def danglingFulfillment : SFulfillment :=
  { order := 42, executed_amount := 7, fee := none }

/-- A concrete liquidity interaction referencing a pool id absent from
the liquidity set. -/
def danglingLiquidityInteraction : SLiquidityInteraction :=
  { internalize := false, id := 42, input_token := 5, output_token := 7
    input_amount := 1, output_amount := 2 }

/-- A candidate solution containing only the dangling fulfillment. -/
def badSolution : SSolution :=
  { id := 0, prices := [], trades := [STrade.fulfillment danglingFulfillment]
    interactions := [], score := SScore.solver 0, gas := none }

/-- A response batch containing only the bad candidate. -/
def badSolutions : Solutions := { solutions := [badSolution] }

/-- A trivially decodable candidate solution: no trades, no
interactions, a declared solver score of 100. -/
def plainSolution : SSolution :=
  { id := 1, prices := [], trades := [], interactions := []
    score := SScore.solver 100, gas := none }

/-- A concrete responding solver. -/
def theSolver : Solver := { address := 99 }

/-- A fulfillment validation accepting every input, used to exercise
the success path on concrete inputs. -/
def acceptFulfillment : FulfillmentCheck := fun _ _ _ => none

/-- A JIT validation accepting every input. -/
def acceptJit : JitCheck := fun _ _ => none

/-- A solution validation accepting every input. -/
def acceptSolution : SolutionCheck := fun _ => none

/-- A concrete domain order with uid 8 and no fee policy. -/
def plainOrder : COrder :=
  { uid := 8, side := Side.sell, kind := OrderKind.market
    partiallyFillable := false, protocol_fees := []
    available :=
      { sell := { token := 1, amount := 10 }
        buy := { token := 2, amount := 8 }
        user_fee := 0 } }

/-- An auction holding only the plain order. -/
def orderAuction : CAuction :=
  { id := none, tokens := [], orders := [plainOrder]
    effectiveGasPrice := 0, deadline := { driver := 0, solvers := 0 } }

/-- A fulfillment resolving to the plain order. -/
def validFulfillment : SFulfillment :=
  { order := 8, executed_amount := 10, fee := none }

/-- A concrete solver-supplied JIT order payload. -/
def plainJitOrder : SJitOrder :=
  { sell_token := 1, buy_token := 2, receiver := 3, sell_amount := 4
    buy_amount := 5, valid_to := 6, app_data := 7, fee_amount := 0
    kind := SKind.sell, partially_fillable := false
    sell_token_balance := SSellTokenBalance.erc20
    buy_token_balance := SBuyTokenBalance.erc20
    signing_scheme := SSigningScheme.eip712, signature := [1, 2] }

/-- A concrete JIT trade carrying the plain JIT order. -/
def plainJitTrade : SJitTrade :=
  { order := plainJitOrder, executed_amount := 4 }

/-- The domain JIT trade the decoder produces for the plain JIT trade
under the accepting validation. -/
def decodedPlainJit : CJit :=
  { order := jitOrderOf theSolver plainJitOrder
    executed := plainJitTrade.executed_amount }

/-! ## Helper lemmas -/

theorem mapE_ok_forall2 {f : α → Except String β} {l : List α}
    {r : List β} (h : mapE f l = Except.ok r) :
    List.Forall₂ (fun a b => f a = Except.ok b) l r := by
  induction l generalizing r with
  | nil =>
    simp only [mapE] at h
    cases h
    exact List.Forall₂.nil
  | cons a as ih =>
    simp only [mapE] at h
    cases hfa : f a with
    | error e => rw [hfa] at h; cases h
    | ok b =>
      rw [hfa] at h
      cases hrest : mapE f as with
      | error e => rw [hrest] at h; cases h
      | ok bs =>
        rw [hrest] at h
        cases h
        exact List.Forall₂.cons hfa (ih hrest)

theorem mapE_error_of_mem {f : α → Except String β} {l : List α} {a : α}
    {e : String} (ha : a ∈ l) (he : f a = Except.error e) :
    isError (mapE f l) = true := by
  induction l with
  | nil => cases ha
  | cons x xs ih =>
    rcases List.mem_cons.mp ha with rfl | hxs
    · simp [mapE, he, isError]
    · have hrest := ih hxs
      simp only [mapE]
      cases hfx : f x with
      | error e => simp [isError]
      | ok b =>
        cases hr : mapE f xs with
        | error e => simp [isError]
        | ok bs => rw [hr] at hrest; simp [isError] at hrest

theorem mapO_isSome {f : α → Option β} {l : List α}
    (h : ∀ a ∈ l, (f a).isSome) : (mapO f l).isSome := by
  induction l with
  | nil => simp [mapO]
  | cons a as ih =>
    obtain ⟨b, hb⟩ := Option.isSome_iff_exists.mp (h a (List.mem_cons_self a as))
    obtain ⟨bs, hbs⟩ := Option.isSome_iff_exists.mp
      (ih (fun x hx => h x (List.mem_cons_of_mem a hx)))
    simp [mapO, hb, hbs]

theorem mapO_mem {f : α → Option β} {l : List α} {r : List β}
    (h : mapO f l = some r) {a : α} (ha : a ∈ l) {b : β}
    (hb : f a = some b) : b ∈ r := by
  induction l generalizing r with
  | nil => cases ha
  | cons x xs ih =>
    simp only [mapO] at h
    cases hfx : f x with
    | none => rw [hfx] at h; cases h
    | some b' =>
      rw [hfx] at h
      cases hrest : mapO f xs with
      | none => rw [hrest] at h; cases h
      | some bs =>
        rw [hrest] at h
        cases h
        rcases List.mem_cons.mp ha with rfl | hxs
        · rw [hfx] at hb
          injection hb with hb
          subst hb
          exact List.mem_cons_self _ _
        · exact List.mem_cons_of_mem _ (ih hrest hxs)

theorem lookupToken_append (m₁ m₂ : List (Nat × DToken)) (t : Nat) :
    lookupToken (m₁ ++ m₂) t =
      match lookupToken m₁ t with
      | some v => some v
      | none => lookupToken m₂ t := by
  induction m₁ with
  | nil => simp [lookupToken]
  | cons kv m ih =>
    obtain ⟨k, v⟩ := kv
    by_cases h : t = k <;> simp [lookupToken, h, ih]

theorem lookupToken_eod (m : List (Nat × DToken)) (k t : Nat) :
    lookupToken (entryOrDefault m k) t =
      if (lookupToken m t).isSome then lookupToken m t
      else if t = k then some DToken.defaultEntry else none := by
  unfold entryOrDefault
  by_cases hk : (lookupToken m k).isSome
  · rw [if_pos hk]
    cases ht : lookupToken m t with
    | some v => simp
    | none =>
      by_cases htk : t = k
      · rw [htk] at ht
        rw [ht] at hk
        simp at hk
      · simp [htk]
  · rw [if_neg hk, lookupToken_append]
    cases ht : lookupToken m t with
    | some v => simp
    | none =>
      by_cases htk : t = k <;> simp [lookupToken, htk]

theorem lookup_foldl_eod_isSome {ts : List Nat} {m : List (Nat × DToken)}
    {t : Nat} (h : (lookupToken m t).isSome) :
    lookupToken (ts.foldl entryOrDefault m) t = lookupToken m t := by
  induction ts generalizing m with
  | nil => rfl
  | cons u ts ih =>
    have h1 : lookupToken (entryOrDefault m u) t = lookupToken m t := by
      rw [lookupToken_eod, if_pos h]
    rw [List.foldl_cons, ih (by rw [h1]; exact h), h1]

theorem lookup_foldl_eod_mem {ts : List Nat} {m : List (Nat × DToken)}
    {t : Nat} (hmem : t ∈ ts) :
    lookupToken (ts.foldl entryOrDefault m) t =
      some ((lookupToken m t).getD DToken.defaultEntry) := by
  induction ts generalizing m with
  | nil => cases hmem
  | cons u ts ih =>
    rw [List.foldl_cons]
    cases ho : lookupToken m t with
    | some v =>
      have h1 : lookupToken (entryOrDefault m u) t = some v := by
        rw [lookupToken_eod, if_pos (by rw [ho]; rfl), ho]
      rw [lookup_foldl_eod_isSome (by rw [h1]; rfl), h1]
      rfl
    | none =>
      by_cases htu : t = u
      · have h1 : lookupToken (entryOrDefault m u) t =
            some DToken.defaultEntry := by
          rw [lookupToken_eod, if_neg (by rw [ho]; simp), if_pos htu]
        rw [lookup_foldl_eod_isSome (by rw [h1]; rfl), h1]
        rfl
      · have hmem' : t ∈ ts := by
          rcases List.mem_cons.mp hmem with h | h
          · exact absurd h htu
          · exact h
        have h1 : lookupToken (entryOrDefault m u) t = none := by
          rw [lookupToken_eod, if_neg (by rw [ho]; simp), if_neg htu]
        simp [ih hmem', h1, ho]

theorem floorDiv_le_self (amt : Nat) (d : ℚ) (hd : 1 ≤ d) :
    (Int.floor ((amt : ℚ) / d)).toNat ≤ amt := by
  have hle : (amt : ℚ) / d ≤ (amt : ℚ) := div_le_self (by positivity) hd
  have hfl := Int.floor_mono hle
  rw [Int.floor_natCast] at hfl
  omega

theorem applyFactorDiv_pos (amt : Nat) (d : ℚ) (hd : 0 < d)
    (hq : (Int.floor ((amt : ℚ) / d)).toNat < 2 ^ 256) :
    applyFactorDiv amt d = some ((Int.floor ((amt : ℚ) / d)).toNat) := by
  unfold applyFactorDiv
  rw [if_pos hd]
  simp only [hq, if_pos]

theorem applyFactorDiv_one (amt : Nat) (h : amt < 2 ^ 256) :
    applyFactorDiv amt 1 = some amt := by
  have : (Int.floor ((amt : ℚ) / 1)).toNat = amt := by
    rw [div_one, Int.floor_natCast]
    exact Int.toNat_natCast amt
  rw [applyFactorDiv_pos amt 1 one_pos (by rw [this]; exact h), this]

/-! ## Claim theorems -/

/-- C2 (counterexample): the claim as stated says that for a Sell order
the available sell amount is divided by one plus the factor. On the
concrete sell order with factor one half and available sell amount 100
the encoder leaves the sell amount at 100, which differs from the
claimed quotient of 66. -/
theorem volume_fee_sides_cex :
    (encodeOrder 0 sellFeeOrder).sell_amount =
        sellFeeOrder.available.sell.amount ∧
    (encodeOrder 0 sellFeeOrder).sell_amount ≠
      (Int.floor ((sellFeeOrder.available.sell.amount : ℚ) /
        (1 + 1 / 2))).toNat := by
  constructor
  · rfl
  · have h1 : (encodeOrder 0 sellFeeOrder).sell_amount = 100 := rfl
    have h2 : (Int.floor ((sellFeeOrder.available.sell.amount : ℚ) /
        (1 + 1 / 2))).toNat = 66 := by
      have hc : (sellFeeOrder.available.sell.amount : ℚ) = 100 := by
        norm_num [sellFeeOrder]
      rw [hc]
      norm_num
      decide
    rw [h1, h2]
    decide

/-- C2 (amended): in the fee adjustment of the auction encoder, a Buy
order has its available sell amount divided by one plus the factor and
its buy amount left unchanged, while a Sell order has its available buy
amount divided by one minus the factor and its sell amount left
unchanged; the division is the floordiv-and-degrade operation
applyFactorDiv with fallback to zero. -/
theorem volume_fee_sides (weth : Nat) (o : COrder) (f : ℚ)
    (hpol : o.protocol_fees.head? = some (FeePolicy.volume f)) :
    (o.side = Side.buy →
      (encodeOrder weth o).sell_amount =
        (applyFactorDiv o.available.sell.amount (1 + f)).getD 0 ∧
      (encodeOrder weth o).buy_amount = o.available.buy.amount) ∧
    (o.side = Side.sell →
      (encodeOrder weth o).buy_amount =
        (applyFactorDiv o.available.buy.amount (1 - f)).getD 0 ∧
      (encodeOrder weth o).sell_amount = o.available.sell.amount) := by
  constructor
  · intro hside
    constructor <;> simp [encodeOrder, adjustAvailable, hpol, hside]
  · intro hside
    constructor <;> simp [encodeOrder, adjustAvailable, hpol, hside]

/-- C2 (witness): the amended claim applied to the concrete sell order
with factor one half. -/
theorem volume_fee_sides_witness :
    (encodeOrder 0 sellFeeOrder).buy_amount =
      (applyFactorDiv sellFeeOrder.available.buy.amount (1 - 1 / 2)).getD 0 ∧
    (encodeOrder 0 sellFeeOrder).sell_amount =
      sellFeeOrder.available.sell.amount :=
  (volume_fee_sides 0 sellFeeOrder (1 / 2) rfl).2 rfl

/-- C8: encoding a UniswapV2 pool yields a constant-product liquidity
entry whose fee is the decimal with mantissa 3 and scale 3, worth
exactly 3 over 1000; encoding a Swapr pool yields a constant-product
entry whose fee is the decimal with mantissa bps and scale 4, worth
exactly bps over 10000. -/
theorem constant_product_fee_encoding (l : Liquidity) :
    (∀ pool, l.kind = LKind.uniswapV2 pool →
      (encodeLiquidity l).bind DLiquidity.constantProductFee =
          some ⟨3, 3⟩ ∧
      BigDecimal.toRat ⟨3, 3⟩ = 3 / 1000) ∧
    (∀ pool, l.kind = LKind.swapr pool →
      (encodeLiquidity l).bind DLiquidity.constantProductFee =
          some ⟨(pool.feeBps : Int), 4⟩ ∧
      BigDecimal.toRat ⟨(pool.feeBps : Int), 4⟩ =
        (pool.feeBps : ℚ) / 10000) := by
  constructor
  · intro pool hk
    constructor
    · simp [encodeLiquidity, hk, DLiquidity.constantProductFee]
    · norm_num [BigDecimal.toRat]
  · intro pool hk
    constructor
    · simp [encodeLiquidity, hk, DLiquidity.constantProductFee]
    · norm_num [BigDecimal.toRat]

/-- C8 (witness): the claim applied to the concrete constant-product
and Swapr liquidity entries. -/
theorem constant_product_fee_encoding_witness :
    ((encodeLiquidity cpLiquidity).bind DLiquidity.constantProductFee =
        some ⟨3, 3⟩ ∧
      BigDecimal.toRat ⟨3, 3⟩ = 3 / 1000) ∧
    ((encodeLiquidity swaprLiquidity).bind DLiquidity.constantProductFee =
        some ⟨(swaprPool.feeBps : Int), 4⟩ ∧
      BigDecimal.toRat ⟨(swaprPool.feeBps : Int), 4⟩ =
        (swaprPool.feeBps : ℚ) / 10000) :=
  ⟨(constant_product_fee_encoding cpLiquidity).1 cpPool rfl,
   (constant_product_fee_encoding swaprLiquidity).2 swaprPool rfl⟩

/-- C9: the synthetic order the decoder hands to Jit::new carries the
responding solver's own address as signer for every solver-supplied
payload, and consequently every decoded JIT trade is that synthetic
order with the signer equal to the solver's address — regardless of the
signature bytes, signing scheme, or any other field of the payload. -/
theorem jit_signer_is_solver (fc : FulfillmentCheck) (jc : JitCheck)
    (auction : CAuction) (solver : Solver) (jit : SJitTrade) :
    (jitOrderOf solver jit.order).signature.signer = solver.address ∧
    (∀ t, decodeTrade fc jc auction solver (STrade.jit jit) =
        Except.ok (CTrade.jit t) →
      t.order = jitOrderOf solver jit.order ∧
      t.order.signature.signer = solver.address) := by
  refine ⟨rfl, ?_⟩
  intro t h
  simp only [decodeTrade, Jit.new] at h
  cases hck : jc (jitOrderOf solver jit.order) jit.executed_amount with
  | some err => rw [hck] at h; cases h
  | none =>
    rw [hck] at h
    cases h
    exact ⟨rfl, rfl⟩

/-- C9 (witness): under the accepting validation the plain JIT payload
decodes to the synthetic order attributed to the solver. -/
theorem jit_signer_is_solver_witness :
    decodedPlainJit.order = jitOrderOf theSolver plainJitOrder ∧
    decodedPlainJit.order.signature.signer = theSolver.address :=
  (jit_signer_is_solver acceptFulfillment acceptJit emptyAuction
    theSolver plainJitTrade).2 decodedPlainJit rfl

/-- C10: decoding a custom interaction never fails and passes target,
value, call payload, allowances, inputs, outputs and the internalize
flag through unchanged. -/
theorem custom_interaction_passthrough (liquidity : List Liquidity)
    (i : SCustomInteraction) :
    decodeInteraction liquidity (SInteraction.custom i) =
      Except.ok (CInteraction.custom
        { target := i.target
          value := i.value
          call_data := i.call_data
          allowances := i.allowances.map (fun a =>
            { token := a.token, spender := a.spender, amount := a.amount })
          inputs := i.inputs.map (fun a =>
            { amount := a.amount, token := a.token })
          outputs := i.outputs.map (fun a =>
            { amount := a.amount, token := a.token })
          internalize := i.internalize }) := rfl

/-- C4: the score of a decoded solution is resolveScore applied to the
solver-declared score, the auction's driver-facing deadline and the
optional cutoff (so it is a pure function of exactly those three);
resolveScore forces the surplus ranking exactly when a cutoff is
configured and the deadline is strictly after it, regardless of the
declared score, and otherwise passes the declared score through
unchanged in both its forms. -/
theorem score_resolution_policy (fc : FulfillmentCheck) (jc : JitCheck)
    (sc : SolutionCheck) (auction : CAuction)
    (liquidity : List Liquidity) (weth : Nat) (solver : Solver)
    (cutoff : Option Int) (s : SSolution) :
    (∀ sol, decodeSolution fc jc sc auction liquidity weth solver cutoff
        s = Except.ok sol →
      sol.score = resolveScore s.score auction.deadline.driver cutoff) ∧
    (∀ (declared : SScore) (d t : Int), d > t →
      resolveScore declared d (some t) = SolverScore.surplus) ∧
    (∀ (v : Nat) (d t : Int), ¬ d > t →
      resolveScore (SScore.solver v) d (some t) = SolverScore.solver v) ∧
    (∀ (p : ℚ) (d t : Int), ¬ d > t →
      resolveScore (SScore.riskAdjusted p) d (some t) =
        SolverScore.riskAdjusted p) ∧
    (∀ (v : Nat) (d : Int),
      resolveScore (SScore.solver v) d none = SolverScore.solver v) ∧
    (∀ (p : ℚ) (d : Int),
      resolveScore (SScore.riskAdjusted p) d none =
        SolverScore.riskAdjusted p) := by
  refine ⟨?_, ?_, ?_, ?_, ?_, ?_⟩
  · intro sol h
    unfold decodeSolution at h
    split at h
    · cases h
    · split at h
      · cases h
      · split at h
        · rename_i sol' hn
          cases h
          simp only [Solution.new] at hn
          split at hn
          · cases hn
          · cases hn
            rfl
        · cases h
        · cases h
  · intro declared d t h
    simp [resolveScore, h]
  · intro v d t h
    simp [resolveScore, h]
  · intro p d t h
    simp [resolveScore, h]
  · intro v d
    rfl
  · intro p d
    rfl

/-- C4 (witness): with a cutoff of 0 and a deadline of 1, the declared
score of 100 is overridden by the surplus ranking. -/
theorem score_resolution_policy_witness :
    resolveScore (SScore.solver 100) 1 (some 0) = SolverScore.surplus :=
  (score_resolution_policy acceptFulfillment acceptJit acceptSolution
    emptyAuction [] 0 theSolver (some 0) plainSolution).2.1
    (SScore.solver 100) 1 0 (by decide)

/-- C3: a fulfillment referencing an order uid absent from the
auction's order set fails with the referential-integrity error; one
referencing a present uid hands the located order to Fulfillment::new,
binding it (tokens included) when construction succeeds and surfacing
the wrapped invalid-fulfillment error otherwise; a liquidity
interaction referencing a pool id absent from the round's liquidity set
fails with the referential-integrity error, and one referencing a
present id binds the full pool snapshot; in every failing case the
whole solution decode fails. -/
theorem referential_integrity_decode (fc : FulfillmentCheck)
    (jc : JitCheck) (auction : CAuction) (solver : Solver)
    (liquidity : List Liquidity) (f : SFulfillment)
    (li : SLiquidityInteraction) :
    (auction.orders.find? (fun o => o.uid = f.order) = none →
      decodeTrade fc jc auction solver (STrade.fulfillment f) =
        Except.error "invalid order UID specified in fulfillment") ∧
    (∀ o, auction.orders.find? (fun o => o.uid = f.order) = some o →
      (fc o f.executed_amount (feeOfOpt f.fee) = none →
        decodeTrade fc jc auction solver (STrade.fulfillment f) =
          Except.ok (CTrade.fulfillment
            { order := o
              executed := f.executed_amount
              fee := feeOfOpt f.fee })) ∧
      (∀ err, fc o f.executed_amount (feeOfOpt f.fee) = some err →
        decodeTrade fc jc auction solver (STrade.fulfillment f) =
          Except.error ("invalid fulfillment: " ++ err))) ∧
    (List.find? (fun l => l.id = li.id) liquidity = none →
      decodeInteraction liquidity (SInteraction.liquidity li) =
        Except.error "invalid liquidity ID specified in interaction") ∧
    (∀ l, List.find? (fun l => l.id = li.id) liquidity = some l →
      decodeInteraction liquidity (SInteraction.liquidity li) =
        Except.ok (CInteraction.liquidity
          { liquidity := l
            input := { amount := li.input_amount, token := li.input_token }
            output := { amount := li.output_amount, token := li.output_token }
            internalize := li.internalize })) ∧
    (∀ (sc : SolutionCheck) (s : SSolution) (weth : Nat)
        (cutoff : Option Int),
      ((∃ t ∈ s.trades, ∃ e,
          decodeTrade fc jc auction solver t = Except.error e) ∨
       (∃ i ∈ s.interactions, ∃ e,
          decodeInteraction liquidity i = Except.error e)) →
      isError (decodeSolution fc jc sc auction liquidity weth solver
        cutoff s) = true) := by
  refine ⟨?_, ?_, ?_, ?_, ?_⟩
  · intro h
    simp [decodeTrade, h]
  · intro o h
    constructor
    · intro hck
      simp [decodeTrade, h, Fulfillment.new, hck]
    · intro err hck
      simp [decodeTrade, h, Fulfillment.new, hck]
  · intro h
    simp [decodeInteraction, h]
  · intro l h
    simp [decodeInteraction, h]
  · intro sc s weth cutoff h
    unfold decodeSolution
    rcases h with ⟨t, ht, e, he⟩ | ⟨i, hi, e, he⟩
    · have herr := mapE_error_of_mem ht he
      cases hm : mapE (decodeTrade fc jc auction solver) s.trades with
      | error e => simp [isError]
      | ok trades => rw [hm] at herr; simp [isError] at herr
    · cases hm : mapE (decodeTrade fc jc auction solver) s.trades with
      | error e => simp [isError]
      | ok trades =>
        have herr := mapE_error_of_mem hi he
        cases hmi : mapE (decodeInteraction liquidity) s.interactions with
        | error e => simp [isError]
        | ok interactions => rw [hmi] at herr; simp [isError] at herr

/-- C3 (witness): the dangling fulfillment and the dangling liquidity
interaction fail with their referential-integrity errors, and the
fulfillment resolving to the plain order decodes to a trade binding
that order under the accepting validation. -/
theorem referential_integrity_decode_witness :
    decodeTrade acceptFulfillment acceptJit emptyAuction theSolver
        (STrade.fulfillment danglingFulfillment) =
      Except.error "invalid order UID specified in fulfillment" ∧
    decodeInteraction []
        (SInteraction.liquidity danglingLiquidityInteraction) =
      Except.error "invalid liquidity ID specified in interaction" ∧
    decodeTrade acceptFulfillment acceptJit orderAuction theSolver
        (STrade.fulfillment validFulfillment) =
      Except.ok (CTrade.fulfillment
        { order := plainOrder
          executed := validFulfillment.executed_amount
          fee := feeOfOpt validFulfillment.fee }) :=
  ⟨(referential_integrity_decode acceptFulfillment acceptJit emptyAuction
      theSolver [] danglingFulfillment danglingLiquidityInteraction).1 rfl,
   (referential_integrity_decode acceptFulfillment acceptJit emptyAuction
      theSolver [] danglingFulfillment
      danglingLiquidityInteraction).2.2.1 rfl,
   ((referential_integrity_decode acceptFulfillment acceptJit orderAuction
      theSolver [] validFulfillment
      danglingLiquidityInteraction).2.1 plainOrder rfl).1 rfl⟩

/-- C7: decoding a batch is all-or-nothing: an ok result has exactly
one domain solution per candidate in input order, each the decoding of
its candidate; and if any candidate fails to decode, the whole call
returns an error. -/
theorem into_domain_all_or_nothing (s : Solutions)
    (fc : FulfillmentCheck) (jc : JitCheck) (sc : SolutionCheck)
    (auction : CAuction) (liquidity : List Liquidity) (weth : Nat)
    (solver : Solver) (cutoff : Option Int) :
    (∀ out,
      Solutions.into_domain s fc jc sc auction liquidity weth solver
        cutoff = Except.ok out →
      out.length = s.solutions.length ∧
      ∀ (i : Nat) (h : i < s.solutions.length) (h' : i < out.length),
        decodeSolution fc jc sc auction liquidity weth solver cutoff
          (s.solutions.get ⟨i, h⟩) = Except.ok (out.get ⟨i, h'⟩)) ∧
    ((∃ sol ∈ s.solutions, ∃ e,
        decodeSolution fc jc sc auction liquidity weth solver cutoff
          sol = Except.error e) →
      isError (Solutions.into_domain s fc jc sc auction liquidity weth
        solver cutoff) = true) := by
  constructor
  · intro out h
    have h2 := mapE_ok_forall2 h
    refine ⟨h2.length_eq.symm, ?_⟩
    intro i h h'
    exact h2.get h h'
  · rintro ⟨sol, hsol, e, he⟩
    exact mapE_error_of_mem hsol he

/-- C7 (witness): the batch holding only the candidate with a dangling
fulfillment fails as a whole. -/
theorem into_domain_all_or_nothing_witness :
    isError (Solutions.into_domain badSolutions acceptFulfillment
      acceptJit acceptSolution emptyAuction [] 0 theSolver none) =
      true :=
  (into_domain_all_or_nothing badSolutions acceptFulfillment acceptJit
      acceptSolution emptyAuction [] 0 theSolver none).2
    ⟨badSolution, List.mem_cons_self badSolution [],
     "invalid order UID specified in fulfillment", rfl⟩

/-- C1 (counterexample): the claim as stated equates the adjusted buy
amount of a Sell order with the floor of the exact quotient even when
that quotient exceeds the 256-bit range. On the concrete sell order with
the maximal U256 buy amount and factor one half, the encoder degrades
the buy amount to zero, while the claimed floor is almost twice the
U256 range. -/
theorem volume_fee_floor_overflow_cex :
    (encodeOrder 0 overflowOrder).buy_amount = 0 ∧
    (encodeOrder 0 overflowOrder).buy_amount ≠
      (Int.floor ((overflowOrder.available.buy.amount : ℚ) /
        (1 - 1 / 2))).toNat := by
  have hfl : (Int.floor (((2 ^ 256 - 1 : ℕ) : ℚ) / (1 - 1 / 2))).toNat =
      2 ^ 257 - 2 := by
    have hc : ((2 ^ 256 - 1 : ℕ) : ℚ) = 2 ^ 256 - 1 := by norm_num
    rw [hc]
    norm_num
    omega
  have hpos : (0 : ℚ) < 1 - 1 / 2 := by norm_num
  have hnl : ¬ (Int.floor (((2 ^ 256 - 1 : ℕ) : ℚ) / (1 - 1 / 2))).toNat <
      2 ^ 256 := by
    rw [hfl]
    decide
  have happ : applyFactorDiv (2 ^ 256 - 1) (1 - 1 / 2) = none := by
    unfold applyFactorDiv
    rw [if_pos hpos]
    show (if (Int.floor (((2 ^ 256 - 1 : ℕ) : ℚ) / (1 - 1 / 2))).toNat <
            2 ^ 256
          then some ((Int.floor (((2 ^ 256 - 1 : ℕ) : ℚ) /
            (1 - 1 / 2))).toNat)
          else none) = none
    rw [if_neg hnl]
  have h1 : (encodeOrder 0 overflowOrder).buy_amount = 0 := by
    show (applyFactorDiv (2 ^ 256 - 1) (1 - 1 / 2)).getD 0 = 0
    rw [happ]
    rfl
  have h2 : (Int.floor ((overflowOrder.available.buy.amount : ℚ) /
      (1 - 1 / 2))).toNat = 2 ^ 257 - 2 := by
    have hb : overflowOrder.available.buy.amount = 2 ^ 256 - 1 := rfl
    rw [hb]
    exact hfl
  refine ⟨h1, ?_⟩
  rw [h1, h2]
  decide

/-- C1 (amended): for an order whose first protocol fee policy is a
volume policy with factor f between zero inclusive and one exclusive,
a Buy order has its sell amount set to the floor of the available sell
amount over one plus f with the buy amount unchanged; a Sell order has
its sell amount unchanged and, provided the floor of the available buy
amount over one minus f fits in 256 bits, its buy amount set to that
floor (otherwise it degrades to zero); and with factor zero both
amounts are unchanged. -/
theorem volume_fee_floor_adjustment (weth : Nat) (o : COrder) (f : ℚ)
    (hf0 : 0 ≤ f) (hf1 : f < 1)
    (hpol : o.protocol_fees.head? = some (FeePolicy.volume f))
    (hsell : o.available.sell.amount < 2 ^ 256)
    (hbuy : o.available.buy.amount < 2 ^ 256) :
    (o.side = Side.buy →
      (encodeOrder weth o).sell_amount =
        (Int.floor ((o.available.sell.amount : ℚ) / (1 + f))).toNat ∧
      (encodeOrder weth o).buy_amount = o.available.buy.amount) ∧
    (o.side = Side.sell →
      (encodeOrder weth o).sell_amount = o.available.sell.amount ∧
      ((Int.floor ((o.available.buy.amount : ℚ) / (1 - f))).toNat <
          2 ^ 256 →
        (encodeOrder weth o).buy_amount =
          (Int.floor ((o.available.buy.amount : ℚ) / (1 - f))).toNat)) ∧
    (f = 0 →
      (encodeOrder weth o).sell_amount = o.available.sell.amount ∧
      (encodeOrder weth o).buy_amount = o.available.buy.amount) := by
  have hd1 : (0 : ℚ) < 1 + f := by linarith
  refine ⟨?_, ?_, ?_⟩
  · intro hside
    have hlt : (Int.floor ((o.available.sell.amount : ℚ) /
        (1 + f))).toNat < 2 ^ 256 :=
      lt_of_le_of_lt (floorDiv_le_self _ _ (by linarith)) hsell
    have happ := applyFactorDiv_pos o.available.sell.amount (1 + f) hd1 hlt
    constructor <;> simp [encodeOrder, adjustAvailable, hpol, hside, happ]
  · intro hside
    refine ⟨?_, ?_⟩
    · simp [encodeOrder, adjustAvailable, hpol, hside]
    · intro hq
      have happ := applyFactorDiv_pos o.available.buy.amount (1 - f)
        (by linarith) hq
      simp [encodeOrder, adjustAvailable, hpol, hside, happ]
  · intro hf
    subst hf
    cases hside : o.side with
    | sell =>
      constructor
      · simp [encodeOrder, adjustAvailable, hpol, hside]
      · have h2 : (1 : ℚ) - 0 = 1 := by norm_num
        simp [encodeOrder, adjustAvailable, hpol, hside, h2,
          applyFactorDiv_one _ hbuy]
    | buy =>
      constructor
      · have h1 : (1 : ℚ) + 0 = 1 := by norm_num
        simp [encodeOrder, adjustAvailable, hpol, hside, h1,
          applyFactorDiv_one _ hsell]
      · simp [encodeOrder, adjustAvailable, hpol, hside]

/-- C1 (witness): the amended claim applied to the concrete buy order
with factor one half. -/
theorem volume_fee_floor_adjustment_witness :
    (encodeOrder 0 buyFeeOrder).sell_amount =
      (Int.floor ((buyFeeOrder.available.sell.amount : ℚ) /
        (1 + 1 / 2))).toNat ∧
    (encodeOrder 0 buyFeeOrder).buy_amount =
      buyFeeOrder.available.buy.amount :=
  (volume_fee_floor_adjustment 0 buyFeeOrder (1 / 2) one_half_pos.le
    one_half_lt_one rfl (by decide) (by decide)).1 rfl

/-- C5 (counterexample): the claim as stated makes encoding total over
every auction and liquidity set, but a liquidity set containing a
ZeroEx entry makes Auction::new abort (the todo! panic), modelled as
None. -/
theorem encode_totality_zeroex_cex :
    Auction.new emptyAuction [zeroExLiquidity] 0 = none := rfl

/-- C5 (amended): encoding is total over every auction whose liquidity
set contains no ZeroEx entry, and a failed fee adjustment degrades the
affected amount to zero instead of failing the encode. -/
theorem encode_totality_no_zeroex (auction : CAuction)
    (liquidity : List Liquidity) (weth : Nat)
    (h : ∀ l ∈ liquidity, l.kind.isZeroEx = false) :
    (Auction.new auction liquidity weth).isSome = true ∧
    (∀ (o : COrder) (f : ℚ),
      o.protocol_fees.head? = some (FeePolicy.volume f) →
      (o.side = Side.sell →
        applyFactorDiv o.available.buy.amount (1 - f) = none →
        (encodeOrder weth o).buy_amount = 0) ∧
      (o.side = Side.buy →
        applyFactorDiv o.available.sell.amount (1 + f) = none →
        (encodeOrder weth o).sell_amount = 0)) := by
  constructor
  · have h1 : (mapO (fun l => liquidityTokens l.kind) liquidity).isSome :=
      mapO_isSome (fun l hl => by
        have hz := h l hl
        cases hk : l.kind <;> simp [liquidityTokens]
        rw [hk] at hz
        simp [LKind.isZeroEx] at hz)
    have h2 : (mapO encodeLiquidity liquidity).isSome :=
      mapO_isSome (fun l hl => by
        have hz := h l hl
        cases hk : l.kind <;> simp [encodeLiquidity, hk]
        rw [hk] at hz
        simp [LKind.isZeroEx] at hz)
    obtain ⟨x, hx⟩ := Option.isSome_iff_exists.mp h1
    obtain ⟨y, hy⟩ := Option.isSome_iff_exists.mp h2
    unfold Auction.new
    rw [hx, hy]
    rfl
  · intro o f hpol
    constructor
    · intro hside hnone
      simp [encodeOrder, adjustAvailable, hpol, hside, hnone]
    · intro hside hnone
      simp [encodeOrder, adjustAvailable, hpol, hside, hnone]

/-- C5 (witness): the amended claim applied to the empty auction with
the single constant-product pool. -/
theorem encode_totality_no_zeroex_witness :
    (Auction.new emptyAuction [cpLiquidity] 0).isSome = true :=
  (encode_totality_no_zeroex emptyAuction [cpLiquidity] 0 (by decide)).1

/-- C6: in a successfully encoded auction, every token referenced by
any liquidity entry has an entry in the token map: the pre-existing
entry of the seeded order-derived map when the token was already
present there, and the default entry otherwise. -/
theorem liquidity_tokens_covered (auction : CAuction)
    (liquidity : List Liquidity) (weth : Nat) (a : DAuction)
    (h : Auction.new auction liquidity weth = some a)
    (l : Liquidity) (hl : l ∈ liquidity) (ts : List Nat)
    (hts : liquidityTokens l.kind = some ts) (t : Nat) (ht : t ∈ ts) :
    lookupToken a.tokens t =
      some ((lookupToken (seedTokens auction) t).getD
        DToken.defaultEntry) := by
  unfold Auction.new at h
  cases h1 : mapO (fun l => liquidityTokens l.kind) liquidity with
  | none => rw [h1] at h; cases h
  | some liqTokens =>
    rw [h1] at h
    cases h2 : mapO encodeLiquidity liquidity with
    | none => rw [h2] at h; cases h
    | some encoded =>
      rw [h2] at h
      cases h
      have hmem : t ∈ liqTokens.flatten :=
        List.mem_flatten.mpr ⟨ts, mapO_mem h1 hl hts, ht⟩
      exact lookup_foldl_eod_mem hmem

/-- C6 (witness): token 5 of the concrete constant-product pool gets
the default entry in the encoded token map of the empty auction. -/
theorem liquidity_tokens_covered_witness :
    lookupToken cpEncodedAuction.tokens 5 =
      some ((lookupToken (seedTokens emptyAuction) 5).getD
        DToken.defaultEntry) :=
  liquidity_tokens_covered emptyAuction [cpLiquidity] 0 cpEncodedAuction
    rfl cpLiquidity (List.mem_cons_self _ _) [5, 7] rfl 5 (by decide)

end CowServices
